import Mathlib

/-!
# Verification of the `go-async` package

A shallow embedding of the `async` Go package (files `Async.go` and the
result/sequence type definitions), together with proofs of its specified
properties.

Modelling choices:

* Go's `error` interface value is modelled as `Option E` for an arbitrary
  error type `E`; `nil` is `none`.
* The zero value `*new(T)` of a Go type `T` is modelled as `default` of an
  `Inhabited` instance.
* The channel returned by `Do`/`Stream` is observed through the ordered list
  of events the producing goroutine performs on it: `send` events followed by
  a `close` event (the `defer close(r)` runs at goroutine exit).
* The `step` closure of `Stream` may carry mutable state; it is modelled in
  state-passing style over an arbitrary state type `σ`.  The `for` loop of
  `Stream` need not terminate, so the loop is given a fuel bound: a `none`
  outcome means the loop has not terminated (and hence the channel has not
  been closed) within that much fuel.
-/

namespace Async

/-- Go: `type _Result[T any] struct { Value T; Error error }`. -/
structure _Result (T E : Type) where
  Value : T
  Error : Option E
deriving DecidableEq, Repr

/-- Go: `func success[T any](val T) _Result[T] { return _Result[T]{Value: val, Error: nil} }`. -/
def success {T E : Type} (val : T) : _Result T E :=
  { Value := val, Error := none }

/-- Go: `func fail[T any](err error) _Result[T] { return _Result[T]{Value: *new(T), Error: err} }`. -/
def fail {T E : Type} [Inhabited T] (err : E) : _Result T E :=
  { Value := default, Error := some err }

/-- An observable event the producing goroutine performs on the result
channel: sending one `_Result`, or closing the channel. -/
inductive ChanEvent (T E : Type) where
  | send (r : _Result T E)
  | close
deriving DecidableEq, Repr

/-- Go: `func Do[T any](ctx context.Context, action func(ctx context.Context) (T, error)) Result[T]`.

The goroutine body is
`defer close(r); result, err := action(ctx); if err != nil { r <- fail[T](err) } else { r <- success[T](result) }`;
its observable effect on the channel is this event list (the deferred
`close` is the final event, after the single send). -/
def Do {Ctx T E : Type} [Inhabited T] (ctx : Ctx)
    (action : Ctx → T × Option E) : List (ChanEvent T E) :=
  match action ctx with
  | (result, err) =>
    (match err with
      | some e => [ChanEvent.send (fail e)]
      | none => [ChanEvent.send (success result)]) ++ [ChanEvent.close]

/-- Go: `func Stream[T any](ctx context.Context, step func(ctx context.Context) (T, error, bool)) Sequence[T]`.

The goroutine body is
`defer close(r); for { result, err, next := step(ctx); if err != nil { r <- fail[T](err) } else { r <- success[T](result) }; if !next { break } }`.
`step` is a Go closure and may mutate captured state, so it is modelled in
state-passing style.  `fuel` bounds the number of loop iterations observed:
`none` means the loop has not terminated within `fuel` iterations, so no
`close` has happened yet; `some tr` means the goroutine finished with event
list `tr` (sends in iteration order, then the deferred `close`). -/
def Stream {Ctx σ T E : Type} [Inhabited T] (ctx : Ctx)
    (step : Ctx → σ → (T × Option E × Bool) × σ) :
    Nat → σ → Option (List (ChanEvent T E))
  | 0, _ => none
  | fuel + 1, s =>
    match step ctx s with
    | ((result, err, next), s') =>
      let ev : ChanEvent T E :=
        match err with
        | some e => ChanEvent.send (fail e)
        | none => ChanEvent.send (success result)
      if next then
        Option.map (fun tr => ev :: tr) (Stream ctx step fuel s')
      else
        some [ev, ChanEvent.close]

/-- A step function that ignores its context and returns a predetermined
tuple on its `i`-th call (0-indexed); the closure state is the call
counter. -/
def stepOf {Ctx T E : Type} (f : Nat → T × Option E × Bool) :
    Ctx → Nat → (T × Option E × Bool) × Nat :=
  fun _ i => (f i, i + 1)

/-- The tagging rule both `Do` and `Stream` apply to one `(value, error)`
pair: `fail` on a non-nil error, `success` otherwise. -/
def wrap {T E : Type} [Inhabited T] (v : T) (err : Option E) : _Result T E :=
  match err with
  | some e => fail e
  | none => success v

/-- Number of `send` events in an event list (equals the number of `step`
calls the producing goroutine made, since each call performs exactly one
send). -/
def sendCount {T E : Type} : List (ChanEvent T E) → Nat
  | [] => 0
  | ChanEvent.send _ :: rest => sendCount rest + 1
  | ChanEvent.close :: rest => sendCount rest

/-- Any terminating run of the `Stream` loop starts with the send of the
first iteration's result: the loop body runs before the continuation flag is
first examined. -/
theorem stream_some_head {Ctx σ T E : Type} [Inhabited T] (ctx : Ctx)
    (step : Ctx → σ → (T × Option E × Bool) × σ) (fuel : Nat) (s : σ)
    (tr : List (ChanEvent T E)) (h : Stream ctx step fuel s = some tr) :
    ∃ r tr', tr = ChanEvent.send r :: tr' := by
  cases fuel with
  | zero => simp [Stream] at h
  | succ n =>
    rcases hstep : step ctx s with ⟨⟨v, err, next⟩, s'⟩
    rw [Stream, hstep] at h
    cases next with
    | false =>
      cases err <;> simp_all <;> exact ⟨_, _, h.symm⟩
    | true =>
      dsimp only at h
      rcases htr : Stream ctx step n s' with _ | tr'
      · rw [htr] at h; simp at h
      · rw [htr] at h
        cases err <;> simp_all <;> exact ⟨_, _, h.symm⟩

/-- Runs of the loop of `Stream` over a predetermined step function: if calls
`k, k+1, …, k+m` return `continue = true` except the last, which returns
`continue = false`, the loop performs exactly `m + 1` sends, in call order,
each wrapping that call's `(value, error)` pair, and then closes. -/
theorem stream_stepOf_spec {Ctx T E : Type} [Inhabited T] (ctx : Ctx)
    (f : Nat → T × Option E × Bool) :
    ∀ (m k fuel : Nat), m < fuel →
    (∀ i, k ≤ i → i < k + m → (f i).2.2 = true) →
    (f (k + m)).2.2 = false →
    Stream ctx (stepOf f) fuel k =
      some (((List.range (m + 1)).map fun j =>
        ChanEvent.send (wrap (f (k + j)).1 (f (k + j)).2.1)) ++ [ChanEvent.close]) := by
  intro m
  induction m with
  | zero =>
    intro k fuel hfuel hcont hstop
    cases fuel with
    | zero => omega
    | succ n =>
      have hstop' : (f k).2.2 = false := by simpa using hstop
      rcases hfk : f k with ⟨v, err, next⟩
      rw [hfk] at hstop'
      simp only at hstop'
      subst hstop'
      rw [Stream]
      simp only [stepOf]
      rw [hfk]
      cases err <;> simp [wrap, hfk, List.range_succ, List.range_zero]
  | succ m ih =>
    intro k fuel hfuel hcont hstop
    cases fuel with
    | zero => omega
    | succ n =>
      have harith : ∀ j : Nat, k + 1 + j = k + (j + 1) := fun j => by omega
      have hck : (f k).2.2 = true := hcont k (le_refl k) (by omega)
      rcases hfk : f k with ⟨v, err, next⟩
      rw [hfk] at hck
      simp only at hck
      subst hck
      have ihcall := ih (k + 1) n (by omega)
        (fun i h1 h2 => hcont i (by omega) (by omega))
        (by rw [harith m]; exact hstop)
      rw [Stream]
      simp only [stepOf]
      rw [hfk]
      dsimp only
      rw [if_pos rfl, ihcall]
      simp only [Option.map_some']
      refine congrArg some ?_
      rw [List.range_succ_eq_map (m + 1)]
      simp only [List.map_cons, List.map_map, List.cons_append]
      refine congrArg₂ List.cons ?_ ?_
      · cases err <;> simp [wrap, hfk]
      · refine congrArg (· ++ [ChanEvent.close]) ?_
        refine List.map_congr_left fun j _ => ?_
        simp only [Function.comp]
        rw [harith j]

/-- C1: for every action that returns a value `v` and a nil error, the
conduit returned by `Do` delivers exactly one success-tagged Result whose
value is `v`, and the conduit is then closed; no further Result is ever
delivered on that conduit. -/
theorem do_success_trace {Ctx T E : Type} [Inhabited T] (ctx : Ctx)
    (action : Ctx → T × Option E) (v : T) (h : action ctx = (v, none)) :
    Do ctx action = [ChanEvent.send (success v), ChanEvent.close] ∧
    (success v : _Result T E).Error = none ∧
    (success v : _Result T E).Value = v := by
  refine ⟨?_, rfl, rfl⟩
  simp [Do, h]

theorem do_success_trace_witness :
    Do () (fun _ : Unit => ((3 : Nat), (none : Option Nat))) =
      [ChanEvent.send (success 3), ChanEvent.close] ∧
    (success 3 : _Result Nat Nat).Error = none ∧
    (success 3 : _Result Nat Nat).Value = 3 :=
  do_success_trace () (fun _ : Unit => ((3 : Nat), (none : Option Nat))) 3 rfl

/-- C4: for every action that returns a non-nil error, the conduit returned
by `Do` delivers exactly one failure-tagged Result whose value field equals
the zero representation of `T` (the value the action returned alongside the
error is discarded), and then closes. -/
theorem do_failure_trace {Ctx T E : Type} [Inhabited T] (ctx : Ctx)
    (action : Ctx → T × Option E) (v : T) (e : E)
    (h : action ctx = (v, some e)) :
    Do ctx action = [ChanEvent.send (fail e), ChanEvent.close] ∧
    (fail e : _Result T E).Error = some e ∧
    (fail e : _Result T E).Value = default := by
  refine ⟨?_, rfl, rfl⟩
  simp [Do, h]

theorem do_failure_trace_witness :
    Do () (fun _ : Unit => ((7 : Nat), (some 2 : Option Nat))) =
      [ChanEvent.send (fail 2), ChanEvent.close] ∧
    (fail 2 : _Result Nat Nat).Error = some 2 ∧
    (fail 2 : _Result Nat Nat).Value = default :=
  do_failure_trace () (fun _ : Unit => ((7 : Nat), (some 2 : Option Nat))) 7 2 rfl

/-- C6: every `_Result` built by the `success` or `fail` constructor has
exactly one active field: `success v` has a nil error and carries the
supplied value `v`; `fail e` has error `e` and its value field is the zero
representation of `T`. -/
theorem result_exactly_one_active {T E : Type} [Inhabited T] :
    (∀ v : T, (success v : _Result T E).Error = none ∧
      (success v : _Result T E).Value = v) ∧
    (∀ e : E, (fail e : _Result T E).Error = some e ∧
      (fail e : _Result T E).Value = default) :=
  ⟨fun _ => ⟨rfl, rfl⟩, fun _ => ⟨rfl, rfl⟩⟩

/-- C2: for a step function whose calls return `(v_i, err_i, continue_i)`
with `continue_i = true` for all but the last of `n ≥ 1` calls and
`continue_n = false` on the last, the conduit delivers exactly `n` Results
in call order, each success-tagged iff that call's error is nil, and then
closes; and the run is unchanged if the step function is replaced by any
function agreeing with it on the first `n` calls — step is never called an
`(n+1)`-th time.  (Calls are 0-indexed here: call `i` of the claim is
`f (i - 1)`.) -/
theorem stream_exact_results {Ctx T E : Type} [Inhabited T] (ctx : Ctx)
    (f g : Nat → T × Option E × Bool) (n fuel : Nat)
    (hn : 0 < n) (hfuel : n ≤ fuel)
    (hcont : ∀ i, i + 1 < n → (f i).2.2 = true)
    (hstop : (f (n - 1)).2.2 = false)
    (hagree : ∀ i, i < n → g i = f i) :
    Stream ctx (stepOf f) fuel 0 =
      some (((List.range n).map fun i =>
        ChanEvent.send (wrap (f i).1 (f i).2.1)) ++ [ChanEvent.close]) ∧
    Stream ctx (stepOf g) fuel 0 = Stream ctx (stepOf f) fuel 0 := by
  obtain ⟨m, rfl⟩ : ∃ m, n = m + 1 := ⟨n - 1, by omega⟩
  have hf := stream_stepOf_spec ctx f m 0 fuel (by omega)
    (fun i _ h2 => hcont i (by omega)) (by simpa using hstop)
  have hg := stream_stepOf_spec ctx g m 0 fuel (by omega)
    (fun i _ h2 => by rw [hagree i (by omega)]; exact hcont i (by omega))
    (by rw [show (0 : Nat) + m = m by omega, hagree m (by omega)]
        simpa using hstop)
  constructor
  · simpa using hf
  · rw [hf, hg]
    refine congrArg some (congrArg (· ++ [ChanEvent.close]) ?_)
    refine List.map_congr_left fun j hj => ?_
    have hj' : j < m + 1 := List.mem_range.mp hj
    rw [hagree (0 + j) (by omega)]

/-- A concrete three-call step function (the README's counter example):
call `i` returns value `i + 1` with no error, continuing while the value is
below 3. -/
def counterStep : Nat → Nat × Option Nat × Bool :=
  fun i => (i + 1, none, decide (i + 1 < 3))

theorem stream_exact_results_witness :
    Stream () (stepOf counterStep) 3 0 =
      some (((List.range 3).map fun i =>
        ChanEvent.send (wrap (counterStep i).1 (counterStep i).2.1)) ++
        [ChanEvent.close]) ∧
    Stream () (stepOf counterStep) 3 0 = Stream () (stepOf counterStep) 3 0 :=
  stream_exact_results () counterStep counterStep 3 3 (by decide) (by decide)
    (fun i h => by simp only [counterStep, decide_eq_true_eq]; omega)
    (by decide) (fun i _ => rfl)

/-- C3: an iteration that reports a non-nil error does not by itself stop
the loop of `Stream`: when a call returns `(v, some e, true)`, the loop
sends the failure-tagged result and then keeps running from the new state,
and (whenever the remaining run terminates) the remaining trace begins with
the send of a further call's result — a further `step` call occurred. -/
theorem stream_error_continue {Ctx σ T E : Type} [Inhabited T] (ctx : Ctx)
    (step : Ctx → σ → (T × Option E × Bool) × σ) (s s' : σ) (v : T) (e : E)
    (fuel : Nat) (tr : List (ChanEvent T E))
    (h : step ctx s = ((v, some e, true), s'))
    (hterm : Stream ctx step fuel s' = some tr) :
    Stream ctx step (fuel + 1) s = some (ChanEvent.send (fail e) :: tr) ∧
    ∃ r tr', tr = ChanEvent.send r :: tr' := by
  refine ⟨?_, stream_some_head ctx step fuel s' tr hterm⟩
  rw [Stream, h]
  dsimp only
  rw [hterm]
  simp

/-- C5: in every `Stream` iteration the iteration's Result is sent into the
conduit before the continuation flag is examined: every terminating run from
the iteration's state begins with that send, and when the iteration returns
`continue = false` the result is still delivered, followed only by the
close of the conduit. -/
theorem stream_send_before_flag {Ctx σ T E : Type} [Inhabited T] (ctx : Ctx)
    (step : Ctx → σ → (T × Option E × Bool) × σ) (s s' : σ)
    (v : T) (err : Option E) (next : Bool) (fuel : Nat)
    (h : step ctx s = ((v, err, next), s')) :
    (∀ tr, Stream ctx step (fuel + 1) s = some tr →
      tr.head? = some (ChanEvent.send (wrap v err))) ∧
    (next = false →
      Stream ctx step (fuel + 1) s =
        some [ChanEvent.send (wrap v err), ChanEvent.close]) := by
  constructor
  · intro tr htr
    rw [Stream, h] at htr
    cases next with
    | false => cases err <;> simp_all [wrap] <;> (rw [← htr]; rfl)
    | true =>
      dsimp only at htr
      rcases hrec : Stream ctx step fuel s' with _ | tr''
      · rw [hrec] at htr; simp at htr
      · rw [hrec] at htr; cases err <;> simp_all [wrap] <;> (rw [← htr]; rfl)
  · intro hnext
    subst hnext
    rw [Stream, h]
    cases err <;> simp [wrap]

/-- C10: `Stream` invokes `step` at least once and delivers at least one
Result before the conduit can close: every terminating run's trace starts
with a send and contains at least one send, never closing with zero
results. -/
theorem stream_at_least_one {Ctx σ T E : Type} [Inhabited T] (ctx : Ctx)
    (step : Ctx → σ → (T × Option E × Bool) × σ) (fuel : Nat) (s : σ)
    (tr : List (ChanEvent T E)) (h : Stream ctx step fuel s = some tr) :
    (∃ r tr', tr = ChanEvent.send r :: tr') ∧ 1 ≤ sendCount tr := by
  obtain ⟨r, tr', rfl⟩ := stream_some_head ctx step fuel s tr h
  refine ⟨⟨r, tr', rfl⟩, ?_⟩
  simp only [sendCount]
  omega

/-- C8: `Do` and `Stream` never inspect the cancellation context themselves;
it is only passed through to the supplied action/step.  For any two runs —
even over different context types — in which the action/step calls return
the same tuples, the delivered Results and the closing behaviour are
identical. -/
theorem context_passthrough {Ctx1 Ctx2 σ T E : Type} [Inhabited T]
    (ctx1 : Ctx1) (ctx2 : Ctx2)
    (action1 : Ctx1 → T × Option E) (action2 : Ctx2 → T × Option E)
    (step1 : Ctx1 → σ → (T × Option E × Bool) × σ)
    (step2 : Ctx2 → σ → (T × Option E × Bool) × σ)
    (hact : action1 ctx1 = action2 ctx2)
    (hstep : ∀ s, step1 ctx1 s = step2 ctx2 s) :
    Do ctx1 action1 = Do ctx2 action2 ∧
    ∀ fuel s, Stream ctx1 step1 fuel s = Stream ctx2 step2 fuel s := by
  constructor
  · simp [Do, hact]
  · intro fuel
    induction fuel with
    | zero => intro s; simp [Stream]
    | succ n ih =>
      intro s
      rw [Stream, Stream, hstep s]
      rcases step2 ctx2 s with ⟨⟨v, err, next⟩, s'⟩
      dsimp only
      rw [ih s']

/-- A concrete step function for the error-then-continue scenario: call 0
reports error 9 with `continue = true`; call 1 succeeds with value 4 and
stops. -/
def errStep : Nat → Nat × Option Nat × Bool :=
  fun i => if i = 0 then (0, some 9, true) else (4, none, false)

theorem stream_error_continue_witness :
    Stream () (stepOf errStep) (1 + 1) 0 =
      some (ChanEvent.send (fail 9) ::
        [ChanEvent.send (success 4), ChanEvent.close]) ∧
    ∃ r tr', [ChanEvent.send (success (4 : Nat) : _Result Nat Nat), ChanEvent.close] =
      ChanEvent.send r :: tr' :=
  stream_error_continue () (stepOf errStep) 0 1 0 9 1
    [ChanEvent.send (success 4), ChanEvent.close] rfl (by decide)

theorem stream_send_before_flag_witness :
    (∀ tr,
      Stream () (stepOf (fun _ : Nat => ((5 : Nat), (none : Option Nat), false)))
        (0 + 1) 0 = some tr →
      tr.head? = some (ChanEvent.send (wrap 5 (none : Option Nat)))) ∧
    (false = false →
      Stream () (stepOf (fun _ : Nat => ((5 : Nat), (none : Option Nat), false)))
        (0 + 1) 0 =
        some [ChanEvent.send (wrap 5 (none : Option Nat)), ChanEvent.close]) :=
  stream_send_before_flag ()
    (stepOf (fun _ : Nat => ((5 : Nat), (none : Option Nat), false)))
    0 1 5 none false 0 rfl

theorem stream_at_least_one_witness :
    (∃ r tr', [ChanEvent.send (success (5 : Nat) : _Result Nat Nat), ChanEvent.close] =
      ChanEvent.send r :: tr') ∧
    1 ≤ sendCount [ChanEvent.send (success (5 : Nat) : _Result Nat Nat),
      ChanEvent.close] :=
  stream_at_least_one ()
    (stepOf (fun _ : Nat => ((5 : Nat), (none : Option Nat), false))) 1 0
    [ChanEvent.send (success 5), ChanEvent.close] (by decide)

theorem context_passthrough_witness :
    Do (0 : Nat) (fun _ : Nat => ((1 : Nat), (none : Option Nat))) =
      Do () (fun _ : Unit => ((1 : Nat), (none : Option Nat))) ∧
    ∀ fuel s,
      Stream (0 : Nat) (fun _ (i : Nat) => ((i, (none : Option Nat), false), i + 1)) fuel s =
      Stream () (fun _ (i : Nat) => ((i, (none : Option Nat), false), i + 1)) fuel s :=
  context_passthrough 0 ()
    (fun _ : Nat => ((1 : Nat), (none : Option Nat)))
    (fun _ : Unit => ((1 : Nat), (none : Option Nat)))
    (fun _ (i : Nat) => ((i, (none : Option Nat), false), i + 1))
    (fun _ (i : Nat) => ((i, (none : Option Nat), false), i + 1))
    rfl (fun _ => rfl)

/-- Go: `Do` creates its channel with `make(Result[T])` (and `Stream` with
`make(Sequence[T])`), supplying no capacity argument: the channel is
unbuffered, capacity 0. -/
def makeChanCapacity : Nat := 0

/-- Program counter of the goroutine spawned by `Do`: about to send the
single result, about to run the deferred `close`, or exited. -/
inductive DoPC where
  | atSend
  | atClose
  | finished
deriving DecidableEq, Repr

/-- State of the `Do` goroutine together with the channel's buffer
contents. -/
structure DoProcState (T E : Type) where
  pc : DoPC
  buf : List (_Result T E)
deriving DecidableEq, Repr

/-- Whether a transition involves the consumer receiving from the
channel. -/
inductive DoLabel where
  | internal
  | consumerRecv
deriving DecidableEq, Repr

/-- Operational semantics of the channel operations of the `Do` goroutine on
a channel of capacity `cap` (Go channel semantics): a send completes on its
own only when the buffer has room; on a full (in particular, on an
unbuffered) channel it completes only by rendezvous with a receiving
consumer.  After the send, the deferred `close` runs and the goroutine
exits. -/
inductive DoProcStep (res : _Result T E) (cap : Nat) :
    DoProcState T E → DoLabel → DoProcState T E → Prop where
  | sendBuffered (buf) (h : buf.length < cap) :
      DoProcStep res cap ⟨DoPC.atSend, buf⟩ DoLabel.internal
        ⟨DoPC.atClose, buf ++ [res]⟩
  | sendRendezvous (buf) :
      DoProcStep res cap ⟨DoPC.atSend, buf⟩ DoLabel.consumerRecv
        ⟨DoPC.atClose, buf⟩
  | closeChan (buf) :
      DoProcStep res cap ⟨DoPC.atClose, buf⟩ DoLabel.internal
        ⟨DoPC.finished, buf⟩

/-- Reachability through steps in which the consumer never receives. -/
inductive ReachNoRecv (res : _Result T E) (cap : Nat) :
    DoProcState T E → DoProcState T E → Prop where
  | refl (s) : ReachNoRecv res cap s s
  | step {s s' s''} : DoProcStep res cap s DoLabel.internal s' →
      ReachNoRecv res cap s' s'' → ReachNoRecv res cap s s''

/-- C9: if the consumer never reads from the conduit returned by `Do`, the
producing goroutine blocks forever at the delivery step: on the capacity-0
channel `make(Result[T])` creates, every consumer-free execution leaves the
goroutine still at the send, never reaching the deferred close or exiting —
there is no buffering that would let it complete without a reader. -/
theorem do_blocks_without_reader {T E : Type} (res : _Result T E)
    (s : DoProcState T E)
    (h : ReachNoRecv res makeChanCapacity ⟨DoPC.atSend, []⟩ s) :
    s = ⟨DoPC.atSend, []⟩ ∧ s.pc ≠ DoPC.finished := by
  have key : ∀ s₀ s₁ : DoProcState T E,
      ReachNoRecv res makeChanCapacity s₀ s₁ →
      s₀ = ⟨DoPC.atSend, []⟩ → s₁ = ⟨DoPC.atSend, []⟩ := by
    intro s₀ s₁ hr
    induction hr with
    | refl s => exact fun hs => hs
    | step hstep _ ih =>
      intro h0
      subst h0
      cases hstep with
      | sendBuffered buf hlt => simp [makeChanCapacity] at hlt
  have hs := key _ _ h rfl
  subst hs
  exact ⟨rfl, by simp⟩

theorem do_blocks_without_reader_witness :
    (⟨DoPC.atSend, []⟩ : DoProcState Nat Nat) = ⟨DoPC.atSend, []⟩ ∧
    (⟨DoPC.atSend, []⟩ : DoProcState Nat Nat).pc ≠ DoPC.finished :=
  do_blocks_without_reader (success 0) ⟨DoPC.atSend, []⟩
    (ReachNoRecv.refl ⟨DoPC.atSend, []⟩)

end Async
